import Mathlib

/-!
Verification of the Belgian real-estate visualization app (`app.py`).

The app is a linear pipeline: load a CSV, clean the currency-formatted
profit column into a numeric field, attach coordinates per locality from
a fixed table (Brussels fallback), and render three views.

We embed the pipeline shallowly:
* a CSV cell is a `Cell` (string, numeric, or missing/NaN — mirroring
  the dynamic values a pandas column may hold);
* the profit-cleaning chain of `str.replace`/`str.strip` calls becomes
  character-list filtering plus a Python-style strip;
* `pd.to_numeric(..., errors="coerce")` becomes a total decimal parser
  into `Option ℚ` (`none` models NaN / parse failure); exotic inputs the
  claims never exercise (`"inf"`, `"nan"` words) are parsed as failures;
* the coordinate dictionary becomes an association list with Python
  `dict.get` semantics (a non-string key never matches);
* the per-row loop of `enrich_with_coords`, whose tuple unpacking would
  raise if the lookup produced `None`, is threaded through `Option`;
* the file resolution of the orchestrator is modelled over an abstract
  two-slot file system.
-/

namespace RealEstate

/-- A dynamically-typed CSV cell: a string, a number, or missing (NaN). -/
inductive Cell where
  | str (s : String)
  | num (q : ℚ)
  | nan
deriving DecidableEq, Repr

/-- Characters removed by the three `str.replace` calls in `load_data`:
the euro sign, the comma and the space. -/
def isStrippedChar (c : Char) : Bool :=
  c == '€' || c == ',' || c == ' '

/-- The chained `str.replace("€","").replace(",","").replace(" ","")`. -/
def stripCurrency (cs : List Char) : List Char :=
  cs.filter (fun c => !isStrippedChar c)

/-- Python `str.strip()` whitespace: space, tab, newline, carriage
return, vertical tab, form feed. -/
def isPyWhitespace (c : Char) : Bool :=
  c == ' ' || c == '\t' || c == '\n' || c == '\r' ||
  c == Char.ofNat 11 || c == Char.ofNat 12

/-- Python `str.strip()`: drop leading and trailing whitespace. -/
def pyStrip (cs : List Char) : List Char :=
  ((cs.dropWhile isPyWhitespace).reverse.dropWhile isPyWhitespace).reverse

/-- The full cleaning chain of `load_data` (lines 36–41 of `app.py`)
applied to one profit text value. -/
def cleanProfit (s : String) : String :=
  String.mk (pyStrip (stripCurrency s.data))

/-- Numeric value of a list of decimal digit characters. -/
def digitsToNat (ds : List Char) : Nat :=
  ds.foldl (fun a c => a * 10 + (c.toNat - 48)) 0

/-- Split an optional leading sign from a character list, returning
whether the value is negated and the remaining characters. -/
def splitSign (cs : List Char) : Bool × List Char :=
  match cs with
  | [] => (false, [])
  | c :: r =>
    if c == '-' then (true, r)
    else if c == '+' then (false, r)
    else (false, cs)

/-- Parse the digits of an exponent (after `e`/`E`), sign allowed. -/
def parseExpPart (cs : List Char) : Option Int :=
  let (neg, r) := splitSign cs
  let ds := r.takeWhile Char.isDigit
  if (r.dropWhile Char.isDigit).isEmpty && !ds.isEmpty then
    some (if neg then -(digitsToNat ds : Int) else (digitsToNat ds : Int))
  else none

/-- Parse an unsigned decimal mantissa (`digits`, `digits.digits`,
`.digits`, `digits.`); returns its value and the unconsumed suffix. -/
def parseMantissa (cs : List Char) : Option (ℚ × List Char) :=
  let ip := cs.takeWhile Char.isDigit
  let r1 := cs.dropWhile Char.isDigit
  match r1 with
  | [] => if ip.isEmpty then none else some ((digitsToNat ip : ℚ), [])
  | c :: r2 =>
    if c == '.' then
      let fp := r2.takeWhile Char.isDigit
      let r3 := r2.dropWhile Char.isDigit
      if ip.isEmpty && fp.isEmpty then none
      else some ((digitsToNat ip : ℚ) + (digitsToNat fp : ℚ) / ((10 : ℚ) ^ fp.length), r3)
    else if ip.isEmpty then none else some ((digitsToNat ip : ℚ), r1)

/-- Apply an optional exponent suffix to a parsed mantissa; any other
leftover suffix makes the parse fail. -/
def applyExp (m : ℚ) (rest : List Char) : Option ℚ :=
  match rest with
  | [] => some m
  | c :: es =>
    if c == 'e' || c == 'E' then
      (parseExpPart es).map (fun e => m * (10 : ℚ) ^ e)
    else none

/-- Model of `pd.to_numeric(s, errors="coerce")` on a cleaned string: a decimal
number with optional sign, fraction and exponent; `none` models the NaN
produced on parse failure. -/
def toNumeric (s : String) : Option ℚ :=
  let (neg, r) := splitSign s.data
  match parseMantissa r with
  | none => none
  | some (m, rest) => (applyExp m rest).map (fun v => if neg then -v else v)

/-- A raw CSV row, before `load_data` derives the Profit field. The
profit text is the string form of the raw currency-formatted cell. -/
structure RawRow where
  name : Cell
  address : Cell
  locality : Cell
  rawProfit : String
deriving DecidableEq, Repr

/-- A loaded row: the raw fields plus the derived numeric Profit
(`none` = NaN, when the cleaned text fails to parse). -/
structure Row extends RawRow where
  profit : Option ℚ
deriving DecidableEq, Repr

/-- Model of `load_data` (minus the file read): per row, clean the profit text
and coerce it to a number, leaving every other field unchanged. -/
def load_data (rows : List RawRow) : List Row :=
  rows.map (fun r => { r with profit := toNumeric (cleanProfit r.rawProfit) })

/-- Model of `get_coordinates`: the fixed 7-entry locality → (lat, lon) table. -/
def get_coordinates : List (String × ℚ × ℚ) :=
  [("Waterloo", (50.7219, 4.3997)),
   ("Brussels", (50.8466, 4.3528)),
   ("Strombeek-Bever", (50.9050, 4.3681)),
   ("Brussels (Uccle)", (50.7997, 4.3476)),
   ("Sint-Niklaas", (51.1642, 4.1439)),
   ("Brussels (Ixelles)", (50.8287, 4.3676)),
   ("Brussels (1000)", (50.8466, 4.3528))]

/-- Python `dict.get` with a string key. -/
def dictGetStr (d : List (String × ℚ × ℚ)) (s : String) : Option (ℚ × ℚ) :=
  (d.find? (fun p => p.1 == s)).map (fun p => p.2)

/-- Python `dict.get` applied to an arbitrary cell value: only a string
cell can equal a string key, so NaN or numeric cells never match. -/
def dictGetCell (d : List (String × ℚ × ℚ)) : Cell → Option (ℚ × ℚ)
  | .str s => dictGetStr d s
  | _ => none

/-- Model of `coords.get(loc, coords.get("Brussels"))` from `enrich_with_coords`:
look the locality up, defaulting to the Brussels entry of the table. The
result is still an `Option` because `dict.get` may in principle return
`None` (making the tuple unpacking raise). -/
def getCoordOpt (loc : Cell) : Option (ℚ × ℚ) :=
  match dictGetCell get_coordinates loc with
  | some p => some p
  | none => dictGetStr get_coordinates "Brussels"

/-- An enriched row: a loaded row plus the looked-up coordinate pair. -/
structure EnrichedRow extends Row where
  latitude : ℚ
  longitude : ℚ
deriving DecidableEq, Repr

/-- One iteration of the `enrich_with_coords` loop: unpack the looked-up
pair into the two coordinate fields (`none` models the `TypeError` the
unpacking would raise if the lookup produced `None`). -/
def enrichRow (r : Row) : Option EnrichedRow :=
  match getCoordOpt r.locality with
  | some (la, lo) => some { r with latitude := la, longitude := lo }
  | none => none

/-- Model of `enrich_with_coords`: enrich every row in order; the input list is
untouched (the source copies the frame before adding the columns). -/
def enrich_with_coords : List Row → Option (List EnrichedRow)
  | [] => some []
  | r :: rs =>
    match enrichRow r, enrich_with_coords rs with
    | some e, some es => some (e :: es)
    | _, _ => none

/-- Model of `df.drop(columns=["Latitude", "Longitude"])` as passed to the table
view in `main`: every field except the coordinate pair survives, rows in
order. -/
def tableViewData (df : List EnrichedRow) : List Row :=
  df.map (fun e => e.toRow)

/-- The two candidate locations for the CSV file in `main`. -/
inductive CsvPath where
  | localPath
  | parentPath
deriving DecidableEq, Repr

/-- Abstract file system: what (if anything) exists at each candidate
path. -/
structure FileSystem where
  localFile : Option (List RawRow)
  parentFile : Option (List RawRow)

/-- Reading a candidate path. -/
def readCsv (fs : FileSystem) : CsvPath → Option (List RawRow)
  | .localPath => fs.localFile
  | .parentPath => fs.parentFile

/-- Model of `csv_path = local_csv if local_csv.exists() else parent_csv`. -/
def resolveCsvPath (fs : FileSystem) : CsvPath :=
  if fs.localFile.isSome then .localPath else .parentPath

/-- The ways a run can abort: `pd.read_csv` raising on a missing file,
or the (never-occurring) failed tuple unpacking in enrichment. -/
inductive AppError where
  | fileNotFound
  | enrichFailed
deriving DecidableEq, Repr

/-- Model of `main` up to rendering: resolve the path, load, enrich. An `error`
result means the run aborts before any view is rendered. -/
def mainRun (fs : FileSystem) : Except AppError (List EnrichedRow) :=
  match readCsv fs (resolveCsvPath fs) with
  | none => .error .fileNotFound
  | some raw =>
    match enrich_with_coords (load_data raw) with
    | some es => .ok es
    | none => .error .enrichFailed

/-! ### Helper lemmas -/

/-- The function `dropWhile` is the identity when no element satisfies the test. -/
theorem dropWhile_eq_self_of_none {p : Char → Bool} {l : List Char}
    (h : ∀ c ∈ l, p c = false) : l.dropWhile p = l := by
  cases l with
  | nil => rfl
  | cons c r =>
    have hc : p c = false := h c (List.mem_cons_self c r)
    simp [List.dropWhile_cons, hc]

/-- Python `strip` is the identity on whitespace-free text. -/
theorem pyStrip_eq_self {l : List Char}
    (h : ∀ c ∈ l, isPyWhitespace c = false) : pyStrip l = l := by
  unfold pyStrip
  rw [dropWhile_eq_self_of_none h,
    dropWhile_eq_self_of_none (by intro c hc; exact h c (List.mem_reverse.mp hc)),
    List.reverse_reverse]

/-- Every character surviving `pyStrip` was in the input. -/
theorem mem_of_mem_pyStrip {c : Char} {l : List Char}
    (h : c ∈ pyStrip l) : c ∈ l := by
  unfold pyStrip at h
  rw [List.mem_reverse] at h
  have h1 := List.Sublist.mem h (List.dropWhile_sublist _)
  rw [List.mem_reverse] at h1
  exact List.Sublist.mem h1 (List.dropWhile_sublist _)

/-- A decimal digit is not one of the characters `load_data` strips. -/
theorem isDigit_not_stripped {c : Char} (h : c.isDigit = true) :
    isStrippedChar c = false := by
  simp only [isStrippedChar, Bool.or_eq_false_iff, beq_eq_false_iff_ne, ne_eq]
  refine ⟨⟨?_, ?_⟩, ?_⟩ <;> rintro rfl <;> exact absurd h (by decide)

/-- A decimal digit is not Python whitespace. -/
theorem isDigit_not_pyWhitespace {c : Char} (h : c.isDigit = true) :
    isPyWhitespace c = false := by
  simp only [isPyWhitespace, Bool.or_eq_false_iff, beq_eq_false_iff_ne, ne_eq]
  refine ⟨⟨⟨⟨⟨?_, ?_⟩, ?_⟩, ?_⟩, ?_⟩, ?_⟩ <;> rintro rfl <;> exact absurd h (by decide)

/-- The function `splitSign` consumes nothing when the text starts with a digit. -/
theorem splitSign_of_digit {c : Char} (r : List Char) (h : c.isDigit = true) :
    splitSign (c :: r) = (false, c :: r) := by
  have h1 : (c == '-') = false := by
    simp only [beq_eq_false_iff_ne, ne_eq]; rintro rfl; exact absurd h (by decide)
  have h2 : (c == '+') = false := by
    simp only [beq_eq_false_iff_ne, ne_eq]; rintro rfl; exact absurd h (by decide)
  simp [splitSign, h1, h2]

/-- On a nonempty all-digit string, `toNumeric` succeeds and returns the
value of the digit sequence. -/
theorem toNumeric_all_digits {l : List Char} (h0 : l ≠ [])
    (hd : ∀ c ∈ l, c.isDigit = true) :
    toNumeric (String.mk l) = some ((digitsToNat l : ℚ)) := by
  obtain ⟨c, r, rfl⟩ := List.exists_cons_of_ne_nil h0
  have hc : c.isDigit = true := hd c (List.mem_cons_self c r)
  have htake : (c :: r).takeWhile Char.isDigit = c :: r :=
    List.takeWhile_eq_self_iff.mpr hd
  have hdrop : (c :: r).dropWhile Char.isDigit = [] :=
    List.dropWhile_eq_nil_iff.mpr hd
  simp [toNumeric, splitSign_of_digit r hc, parseMantissa, htake, hdrop, applyExp]

/-- The Brussels entry of the coordinate table. -/
theorem dictGetStr_brussels :
    dictGetStr get_coordinates "Brussels" = some (50.8466, 4.3528) := rfl

/-- The locality lookup of `enrich_with_coords` never returns `None`. -/
theorem getCoordOpt_isSome (loc : Cell) : (getCoordOpt loc).isSome = true := by
  unfold getCoordOpt
  cases h : dictGetCell get_coordinates loc with
  | some p => rfl
  | none => rfl

/-- Enriching a single row always succeeds. -/
theorem enrichRow_isSome (r : Row) : (enrichRow r).isSome = true := by
  unfold enrichRow
  obtain ⟨p, hp⟩ := Option.isSome_iff_exists.mp (getCoordOpt_isSome r.locality)
  rw [hp]
  rfl

/-- Enrichment always succeeds on a whole table. -/
theorem enrich_isSome (df : List Row) :
    (enrich_with_coords df).isSome = true := by
  induction df with
  | nil => rfl
  | cons r rs ih =>
    obtain ⟨e, he⟩ := Option.isSome_iff_exists.mp (enrichRow_isSome r)
    obtain ⟨es, hes⟩ := Option.isSome_iff_exists.mp ih
    simp [enrich_with_coords, he, hes]

/-- Enrichment leaves every loaded field of every row unchanged. -/
theorem enrich_map_toRow {df : List Row} {es : List EnrichedRow}
    (h : enrich_with_coords df = some es) :
    es.map EnrichedRow.toRow = df := by
  induction df generalizing es with
  | nil =>
    simp only [enrich_with_coords] at h
    cases h
    rfl
  | cons r rs ih =>
    simp only [enrich_with_coords] at h
    cases he : enrichRow r with
    | none => rw [he] at h; cases h
    | some e =>
      cases hes : enrich_with_coords rs with
      | none => rw [he, hes] at h; cases h
      | some es2 =>
        rw [he, hes] at h
        cases h
        have hder : e.toRow = r := by
          unfold enrichRow at he
          obtain ⟨p, hp⟩ := Option.isSome_iff_exists.mp (getCoordOpt_isSome r.locality)
          rw [hp] at he
          cases he
          rfl
        simp [hder, ih hes]

/-- The function `load_data` keeps every raw field of every row. -/
theorem load_data_map_toRawRow (rows : List RawRow) :
    (load_data rows).map Row.toRawRow = rows := by
  induction rows with
  | nil => rfl
  | cons r rs ih =>
    simpa [load_data] using (by simpa [load_data] using ih)

/-! ### Claim theorems -/

set_option maxRecDepth 4000

/-- C1: the cleaning step removes every occurrence of the euro sign,
comma and space from any profit text; `"€1,234 "` cleans to `"1234"`
with numeric value 1234, and `"€ 45.000"` cleans to `"45.000"` (decimal
point retained) with numeric value 45. -/
theorem cleaning_removes_currency_chars :
    (∀ (s : String), ∀ c ∈ (cleanProfit s).data, isStrippedChar c = false) ∧
    cleanProfit "€1,234 " = "1234" ∧
    toNumeric (cleanProfit "€1,234 ") = some (1234 : ℚ) ∧
    cleanProfit "€ 45.000" = "45.000" ∧
    toNumeric (cleanProfit "€ 45.000") = some (45 : ℚ) := by
  refine ⟨?_, by decide, by with_unfolding_all decide, by decide,
    by with_unfolding_all decide⟩
  intro s c hc
  have h1 : c ∈ stripCurrency s.data := mem_of_mem_pyStrip hc
  have h2 := (List.mem_filter.mp h1).2
  simpa using h2

/-- Witness for C1: the character `'1'` survives cleaning of
`"€1,234 "` and is not a stripped character. -/
theorem cleaning_removes_currency_chars_witness :
    ('1' ∈ (cleanProfit "€1,234 ").data) ∧ isStrippedChar '1' = false :=
  ⟨by decide, cleaning_removes_currency_chars.1 "€1,234 " '1' (by decide)⟩

/-- C2: profit text that is not numeric after cleaning (e.g. `"N/A"`)
yields a missing Profit; the parse is total (`Option`-valued, no
exception), and every other field of every row is unchanged. -/
theorem unparsable_profit_yields_missing :
    toNumeric (cleanProfit "N/A") = none ∧
    (∀ rows : List RawRow, (load_data rows).map Row.toRawRow = rows) ∧
    (∀ rows : List RawRow, ∀ r ∈ load_data rows,
      r.profit = toNumeric (cleanProfit r.rawProfit)) := by
  refine ⟨by decide, load_data_map_toRawRow, ?_⟩
  intro rows r hr
  simp only [load_data, List.mem_map] at hr
  obtain ⟨a, _, rfl⟩ := hr
  rfl

/-- The row used to witness C2. -/
def rawNA : RawRow := ⟨Cell.str "X", Cell.str "Y", Cell.str "Z", "N/A"⟩

/-- The loaded form of `rawNA`: its Profit is missing. -/
def rowNA : Row := ⟨rawNA, none⟩

/-- Witness for C2: loading the `"N/A"` row produces `rowNA`, whose
Profit is the (failed) parse of its cleaned profit text. -/
theorem unparsable_profit_yields_missing_witness :
    (rowNA ∈ load_data [rawNA]) ∧
    rowNA.profit = toNumeric (cleanProfit rowNA.rawProfit) :=
  ⟨by decide, unparsable_profit_yields_missing.2.2 [rawNA] rowNA (by decide)⟩

/-- C3: the Enricher is total — the locality lookup always produces a
coordinate pair, and enriching any table always succeeds (never a
missing/null coordinate). -/
theorem enricher_always_has_coordinates :
    (∀ loc : Cell, (getCoordOpt loc).isSome = true) ∧
    (∀ df : List Row, (enrich_with_coords df).isSome = true) :=
  ⟨getCoordOpt_isSome, enrich_isSome⟩

/-- C9: a missing (NaN) or non-string Locality does not raise — the
lookup falls through to the Brussels pair `(50.8466, 4.3528)`, exactly
as for an unrecognized locality string. -/
theorem nan_locality_falls_back_to_brussels :
    getCoordOpt Cell.nan = some (50.8466, 4.3528) ∧
    (∀ q : ℚ, getCoordOpt (Cell.num q) = some (50.8466, 4.3528)) ∧
    (∀ r : Row, (r.locality = Cell.nan ∨ ∃ q, r.locality = Cell.num q) →
      enrichRow r = some ⟨r, 50.8466, 4.3528⟩) := by
  refine ⟨rfl, fun q => rfl, ?_⟩
  intro r h
  have hg : getCoordOpt r.locality = some (50.8466, 4.3528) := by
    rcases h with h | ⟨q, h⟩ <;> rw [h] <;> rfl
  unfold enrichRow
  rw [hg]

/-- The row used to witness C9: its Locality is NaN. -/
def rowNanLoc : Row := ⟨⟨Cell.str "A", Cell.str "B", Cell.nan, "1"⟩, some 1⟩

/-- Witness for C9: the NaN-locality row enriches to the Brussels
pair. -/
theorem nan_locality_falls_back_to_brussels_witness :
    (rowNanLoc.locality = Cell.nan ∨ ∃ q, rowNanLoc.locality = Cell.num q) ∧
    enrichRow rowNanLoc = some ⟨rowNanLoc, 50.8466, 4.3528⟩ :=
  ⟨Or.inl rfl,
    nan_locality_falls_back_to_brussels.2.2 rowNanLoc (Or.inl rfl)⟩

/-- First row of the end-to-end example in the spec: a known locality. -/
def rawWaterloo : RawRow :=
  ⟨Cell.str "Agency A", Cell.str "Main Street 1", Cell.str "Waterloo", "€1,000"⟩

/-- Second row of the end-to-end example in the spec: an unknown locality. -/
def rawUnknown : RawRow :=
  ⟨Cell.str "Agency B", Cell.str "Side Street 2", Cell.str "Unknown Town", "N/A"⟩

/-- C4: a locality that is a key of the coordinate table receives that
entry (`"Waterloo"` receives `(50.7219, 4.3997)`); a locality that is
not a key receives the Brussels entry `(50.8466, 4.3528)`; and the
two-row end-to-end example enriches as the spec states. -/
theorem locality_lookup_matches_table :
    getCoordOpt (Cell.str "Waterloo") = some (50.7219, 4.3997) ∧
    (∀ s p, dictGetStr get_coordinates s = some p →
      getCoordOpt (Cell.str s) = some p) ∧
    (∀ s, dictGetStr get_coordinates s = none →
      getCoordOpt (Cell.str s) = some (50.8466, 4.3528)) ∧
    enrich_with_coords (load_data [rawWaterloo, rawUnknown]) =
      some [⟨⟨rawWaterloo, some 1000⟩, 50.7219, 4.3997⟩,
            ⟨⟨rawUnknown, none⟩, 50.8466, 4.3528⟩] := by
  refine ⟨rfl, ?_, ?_, ?_⟩
  · intro s p h
    simp only [getCoordOpt, dictGetCell]
    rw [h]
  · intro s h
    simp only [getCoordOpt, dictGetCell]
    rw [h]
    rfl
  · rfl

/-- Witness for C4: `"Waterloo"` is a key of the table and the lookup
returns its entry. -/
theorem locality_lookup_matches_table_witness :
    getCoordOpt (Cell.str "Waterloo") = some ((50.7219 : ℚ), (4.3997 : ℚ)) :=
  locality_lookup_matches_table.2.1 "Waterloo" (50.7219, 4.3997) rfl

/-- C5: a comma-as-decimal profit text is misparsed rather than
rejected — the comma is stripped like a thousands separator, so the
parsed value is the concatenated digits (`"12,34"` parses to 1234). -/
theorem comma_decimal_is_misparsed :
    (∀ a b : List Char, (∀ c ∈ a, c.isDigit = true) →
      (∀ c ∈ b, c.isDigit = true) → a ++ b ≠ [] →
      cleanProfit (String.mk (a ++ ',' :: b)) = String.mk (a ++ b) ∧
      toNumeric (cleanProfit (String.mk (a ++ ',' :: b))) =
        some ((digitsToNat (a ++ b) : ℚ))) ∧
    cleanProfit "12,34" = "1234" ∧
    toNumeric (cleanProfit "12,34") = some (1234 : ℚ) := by
  refine ⟨?_, by decide, by with_unfolding_all decide⟩
  intro a b ha hb hne
  have hdig : ∀ c ∈ a ++ b, c.isDigit = true := by
    intro c hc
    rcases List.mem_append.mp hc with h | h
    exacts [ha c h, hb c h]
  have h1 : a.filter (fun c => !isStrippedChar c) = a :=
    List.filter_eq_self.mpr
      (fun c hc => by rw [isDigit_not_stripped (ha c hc)]; rfl)
  have h2 : b.filter (fun c => !isStrippedChar c) = b :=
    List.filter_eq_self.mpr
      (fun c hc => by rw [isDigit_not_stripped (hb c hc)]; rfl)
  have hstrip : stripCurrency (a ++ ',' :: b) = a ++ b := by
    unfold stripCurrency
    rw [List.filter_append, List.filter_cons, if_neg (by decide), h1, h2]
  have hclean : cleanProfit (String.mk (a ++ ',' :: b)) = String.mk (a ++ b) := by
    unfold cleanProfit
    show String.mk (pyStrip (stripCurrency (a ++ ',' :: b))) = _
    rw [hstrip, pyStrip_eq_self (fun c hc => isDigit_not_pyWhitespace (hdig c hc))]
  exact ⟨hclean, by rw [hclean, toNumeric_all_digits hne hdig]⟩

/-- Witness for C5: `"12,34"` (as a character list) cleans to `"1234"`
and parses to the concatenated digits. -/
theorem comma_decimal_is_misparsed_witness :
    cleanProfit (String.mk (['1', '2'] ++ ',' :: ['3', '4'])) =
      String.mk (['1', '2'] ++ ['3', '4']) ∧
    toNumeric (cleanProfit (String.mk (['1', '2'] ++ ',' :: ['3', '4']))) =
      some ((digitsToNat (['1', '2'] ++ ['3', '4']) : ℚ)) :=
  comma_decimal_is_misparsed.1 ['1', '2'] ['3', '4']
    (by decide) (by decide) (by decide)

/-- C6: the Enricher is pure — in this embedding it is a function whose
result is a new list, and the result differs from the input only by the
added coordinate fields: projecting them away gives back the input,
every other field unchanged. -/
theorem enricher_only_adds_coordinates (df : List Row) (es : List EnrichedRow)
    (h : enrich_with_coords df = some es) :
    es.map EnrichedRow.toRow = df :=
  enrich_map_toRow h

/-- The row used to witness C6. -/
def rowBrussels : Row :=
  ⟨⟨Cell.str "A", Cell.str "B", Cell.str "Brussels", "5"⟩, some 5⟩

/-- Witness for C6: enriching a one-row table and dropping the added
coordinates returns the original row. -/
theorem enricher_only_adds_coordinates_witness :
    enrich_with_coords [rowBrussels] =
      some [⟨rowBrussels, 50.8466, 4.3528⟩] ∧
    ([⟨rowBrussels, 50.8466, 4.3528⟩] : List EnrichedRow).map
      EnrichedRow.toRow = [rowBrussels] :=
  ⟨rfl, enricher_only_adds_coordinates [rowBrussels] _ rfl⟩

/-- C7: the data passed to the table view is the enriched table minus
the coordinate pair — same length, and at every index exactly the
non-coordinate projection of the enriched row, in loaded order. -/
theorem table_view_drops_only_coordinates (df : List EnrichedRow) :
    (tableViewData df).length = df.length ∧
    ∀ i : Nat, (tableViewData df)[i]? = (df[i]?).map EnrichedRow.toRow := by
  refine ⟨by simp [tableViewData], ?_⟩
  intro i
  simp [tableViewData]

/-- C8: file resolution tries the entry-point directory first and the
parent directory second, the first existing candidate winning; with the
file missing at both candidates the run aborts with an error before
rendering. -/
theorem csv_resolution_prefers_local (fs : FileSystem) :
    (fs.localFile.isSome = true → resolveCsvPath fs = CsvPath.localPath) ∧
    (fs.localFile = none → resolveCsvPath fs = CsvPath.parentPath) ∧
    (fs.localFile = none → fs.parentFile = none →
      mainRun fs = Except.error AppError.fileNotFound) := by
  refine ⟨?_, ?_, ?_⟩
  · intro h
    simp [resolveCsvPath, h]
  · intro h
    simp [resolveCsvPath, h]
  · intro h1 h2
    simp [mainRun, resolveCsvPath, readCsv, h1, h2]

/-- The file system used to witness C8: no file at either candidate. -/
def emptyFs : FileSystem := ⟨none, none⟩

/-- Witness for C8: with both candidates missing, resolution falls to
the parent path and the run aborts with a file-not-found error. -/
theorem csv_resolution_prefers_local_witness :
    resolveCsvPath emptyFs = CsvPath.parentPath ∧
    mainRun emptyFs = Except.error AppError.fileNotFound :=
  ⟨(csv_resolution_prefers_local emptyFs).2.1 rfl,
   (csv_resolution_prefers_local emptyFs).2.2 rfl rfl⟩

/-- C10: enrichment preserves the shape of the table — same number of rows
in the same order, and at every index the Name, Address, Locality, raw
profit text and derived Profit are unchanged. -/
theorem enrichment_preserves_shape (df : List Row) (es : List EnrichedRow)
    (h : enrich_with_coords df = some es) :
    es.length = df.length ∧
    ∀ i : Nat,
      (es[i]?).map (fun e => e.name) = (df[i]?).map (fun r => r.name) ∧
      (es[i]?).map (fun e => e.address) = (df[i]?).map (fun r => r.address) ∧
      (es[i]?).map (fun e => e.locality) = (df[i]?).map (fun r => r.locality) ∧
      (es[i]?).map (fun e => e.rawProfit) = (df[i]?).map (fun r => r.rawProfit) ∧
      (es[i]?).map (fun e => e.profit) = (df[i]?).map (fun r => r.profit) := by
  have hm := enrich_map_toRow h
  constructor
  · calc es.length = (es.map EnrichedRow.toRow).length := by simp
      _ = df.length := by rw [hm]
  · intro i
    have hq : df[i]? = (es[i]?).map EnrichedRow.toRow := by
      rw [← hm]; simp
    rw [hq]
    cases es[i]? <;> simp

/-- The row used to witness C10. -/
def rowSintNiklaas : Row :=
  ⟨⟨Cell.str "C", Cell.str "D", Cell.str "Sint-Niklaas", "7"⟩, some 7⟩

/-- Witness for C10: a one-row table keeps its length through
enrichment. -/
theorem enrichment_preserves_shape_witness :
    enrich_with_coords [rowSintNiklaas] =
      some [⟨rowSintNiklaas, 51.1642, 4.1439⟩] ∧
    ([⟨rowSintNiklaas, 51.1642, 4.1439⟩] : List EnrichedRow).length =
      [rowSintNiklaas].length :=
  ⟨rfl, (enrichment_preserves_shape [rowSintNiklaas] _ rfl).1⟩

end RealEstate
